import Mathlib

/-!
Verification of the Innoserve-2025 python_rag_service core against its
specification.  The Python source is shallowly embedded: JSON/Python values
become the inductive `PyVal`, the per-conversation memory file becomes
`FileContent`, the external capabilities (vector search, generation model,
web fallback) become function-valued fields of `Caps`, and the two Flask
routes become pure functions returning an HTTP outcome together with a
trace of capability invocations and the final stored file.
-/

/-- A Python/JSON value, as produced by `json.load` and handled by the
memory service.  `pdict` models a dict as an association list with distinct
keys (the JSON parser produces unique keys). -/
inductive PyVal where
  | pstr (s : String)
  | pint (n : Int)
  | pbool (b : Bool)
  | pnone
  | plist (items : List PyVal)
  | pdict (fields : List (String × PyVal))

/-- Python truthiness (`bool(v)`) for the embedded values. -/
def truthy : PyVal → Bool
  | .pstr s => !s.isEmpty
  | .pint n => n != 0
  | .pbool b => b
  | .pnone => false
  | .plist items => !items.isEmpty
  | .pdict fields => !fields.isEmpty

/-- Python `str(v)`.  Exact on scalars; the renderings of composite values
are abbreviated, since no checked property depends on them (the source only
applies `str` to the components of legacy `[role, message]` entries, which
are strings in every stored log). -/
def pyStr : PyVal → String
  | .pstr s => s
  | .pint n => toString n
  | .pbool b => if b then "True" else "False"
  | .pnone => "None"
  | .plist _ => "<list>"
  | .pdict _ => "<dict>"

/-- A canonical conversation turn as held in memory after normalization:
the dict `{"role": role, "message": message}`.  The dict branch of
`_normalize_history` copies the values unchanged, so the fields are
`PyVal`, not `String`. -/
structure Entry where
  role : PyVal
  message : PyVal

/-- The dict written back to disk for one normalized entry
(`{"role": ..., "message": ...}` in `add_message` / `_normalize_history`). -/
def entryToPyVal (e : Entry) : PyVal :=
  .pdict [("role", e.role), ("message", e.message)]

/-- One iteration body of `ChatMemoryService._normalize_history`:
a dict containing both a `role` and a `message` key is kept as is;
a two-element list (or tuple) is converted with `str` applied to both
components; anything else yields `None`, i.e. the entry is dropped. -/
def normalizeItem (item : PyVal) : Option Entry :=
  match item with
  | .pdict fields =>
    match fields.lookup "role", fields.lookup "message" with
    | some r, some m => some ⟨r, m⟩
    | _, _ => none
  | .plist l =>
    match l with
    | [a, b] => some ⟨.pstr (pyStr a), .pstr (pyStr b)⟩
    | _ => none
  | _ => none

/-- Python iteration `for item in v`: lists yield their items, dicts their
keys, strings their characters; other values raise `TypeError` (modelled
as `Except.error ()`). -/
def iterItems (v : PyVal) : Except Unit (List PyVal) :=
  match v with
  | .plist items => .ok items
  | .pdict fields => .ok (fields.map (fun kv => PyVal.pstr kv.1))
  | .pstr s => .ok (s.data.map (fun c => PyVal.pstr (String.singleton c)))
  | _ => .error ()

/-- `ChatMemoryService._normalize_history(history_raw)`:
`for item in history_raw or []` — a falsy raw value iterates the empty
list, a truthy one is iterated itself (raising `TypeError` if it is not
iterable); each item goes through `normalizeItem`. -/
def normalize_history (history_raw : PyVal) : Except Unit (List Entry) :=
  if truthy history_raw then
    match iterItems history_raw with
    | .error e => .error e
    | .ok items => .ok (items.filterMap normalizeItem)
  else
    .ok []

/-- The state of the one memory file `{user_id}_{chat_id}.json` relevant to
a request: missing, present but not parseable by `json.load` (read raises),
or present with parsed JSON content `v`. -/
inductive FileContent where
  | absent
  | invalid
  | json (v : PyVal)

/-- Python slice `l[-limit:]` for a natural `limit`: `-0` is `0`, so
`limit = 0` yields the whole list; otherwise the last `limit` elements. -/
def pySliceLast {α : Type} (l : List α) (limit : Nat) : List α :=
  if limit = 0 then l else l.drop (l.length - limit)

/-- `ChatMemoryService.add_message(user_id, chat_id, message, role)` on the
file for that key: a missing file and a `json.load` failure both reset the
raw history to `[]` (the `except` clause); the raw history is then
normalized (which can raise for valid-JSON non-iterable content — this is
outside the `try`), the new turn is appended, and the whole normalized
list is written back. -/
def add_message (fc : FileContent) (message role : String) : Except Unit FileContent :=
  let raw : PyVal :=
    match fc with
    | .absent => .plist []
    | .invalid => .plist []
    | .json v => v
  match normalize_history raw with
  | .error e => .error e
  | .ok history =>
    .ok (.json (.plist ((history ++ [Entry.mk (.pstr role) (.pstr message)]).map entryToPyVal)))

/-- `ChatMemoryService.get_history(user_id, chat_id, limit)` on the file
for that key: a missing file yields `[]`; an unparseable file raises
(`json.load` is NOT wrapped in a `try` here); otherwise the parsed history
is normalized and the slice `normalized[-limit:]` is returned. -/
def get_history (fc : FileContent) (limit : Nat) : Except Unit (List Entry) :=
  match fc with
  | .absent => .ok []
  | .invalid => .error ()
  | .json v =>
    match normalize_history v with
    | .error e => .error e
    | .ok normalized => .ok (pySliceLast normalized limit)

/-- Modelled on the wording of the spec (§4.1, Normalization): a canonical
object entry (one providing both a role and a message field) keeps its role
and message; a legacy two-element pair becomes the same shape with its
components rendered as strings; every other entry is silently dropped;
order is preserved. -/
def normalizeSpecC7 (entries : List PyVal) : List Entry :=
  entries.filterMap fun entry =>
    match entry with
    | .pdict fields =>
      match fields.lookup "role", fields.lookup "message" with
      | some r, some m => some (Entry.mk r m)
      | _, _ => none
    | .plist pair =>
      match pair with
      | [a, b] => some (Entry.mk (.pstr (pyStr a)) (.pstr (pyStr b)))
      | _ => none
    | _ => none

/-! The RAG routes (`routes.py`) and RAG core (`rag_service.py`). -/

/-- Character-list prefix test (`Bool`-valued), auxiliary to `containsSub`. -/
def startsWithChars : List Char → List Char → Bool
  | _, [] => true
  | [], _ :: _ => false
  | h :: hs, n :: ns => h == n && startsWithChars hs ns

/-- Whether `needle` occurs contiguously inside `hay`. -/
def containsChars : List Char → List Char → Bool
  | [], needle => needle.isEmpty
  | c :: rest, needle => startsWithChars (c :: rest) needle || containsChars rest needle

/-- Python substring containment `needle in hay` on strings. -/
def containsSub (hay needle : String) : Bool := containsChars hay.data needle.data

/-- The sentinel returned by `find_best_passage` when the vector search
yields nothing: "sorry, no relevant data found in the knowledge base". -/
def sentinelNoData : String := "抱歉，知識庫中找不到相關資料。"

/-- The two fixed refusal markers `fallback_markers` in `routes.py`
(identical lists in `chat` and `handle_generation`). -/
def fallback_markers : List String :=
  ["抱歉，知識庫中找不到相關資料", "無法回答這個問題"]

/-- The fallback trigger condition of both routes:
`any(m in relevant_context for m in fallback_markers) or
 any(m in (final_answer or "") for m in fallback_markers)`.
(For a string-valued answer, `final_answer or ""` equals `final_answer`
whenever it is non-empty, and no marker occurs in `""`, so the `or ""`
guard is the identity for containment purposes.) -/
def fallbackTriggered (relevant_context final_answer : String) : Bool :=
  fallback_markers.any (fun m => containsSub relevant_context m) ||
  fallback_markers.any (fun m => containsSub final_answer m)

/-- An exception from a Google API call: `ResourceExhausted` (quota) or
any other exception. -/
inductive PyErr where
  | resourceExhausted
  | other

/-- `rag_service.find_best_passage`: the input models
`results.get('documents')` of the vector query when `results` is truthy
(`none` when `results` is falsy or has no truthy `documents` entry).
An empty outer or first inner list is falsy, giving the sentinel;
otherwise the single best passage `documents[0][0]` is returned. -/
def find_best_passage (documents : Option (List (List String))) : String :=
  match documents with
  | none => sentinelNoData
  | some [] => sentinelNoData
  | some (first :: _) =>
    match first with
    | [] => sentinelNoData
    | d :: _ => d

/-- The fixed instruction template of `rag_service.generate_answer`,
embedding context and question verbatim. -/
def promptTemplate (context query : String) : String :=
  "\n    請根據以下提供的【參考資料】來回答【使用者的問題】。\n    你的回答應該盡量基於參考資料，如果參考資料無法回答，請回答「根據我所知的資料，我無法回答這個問題」。\n\n    【參考資料】:\n    "
    ++ context ++ "\n\n    【使用者的問題】:\n    " ++ query ++ "\n\n    你的回答:\n    "

/-- `rag_service.generate_answer(query, context, generation_model)`:
builds the prompt and calls the model; the model's failure propagates. -/
def generate_answer (query context : String) (model : String → Except PyErr String) :
    Except PyErr String :=
  model (promptTemplate context query)

/-- The external capabilities used by the routes:
`query` is `collection.query` (exposed as the `documents` field it
returns), `generateContent` is `generation_model.generate_content`
(exposed as `response.text`), and `webSearch` is
`build_web_context(question, top_k=2)`, which catches its own errors and
signals failure with the empty string. -/
structure Caps where
  query : String → Except PyErr (Option (List (List String)))
  generateContent : String → Except PyErr String
  webSearch : String → String

/-- The observable HTTP response of a route: status code, the `reply`
field, the `error` field, and the `history` field (chat only).
An unhandled exception surfaces as the host framework's generic 500 with
no JSON body: status 500 with all fields `none`. -/
structure HttpOutcome where
  status : Nat
  reply : Option String
  errorMsg : Option String
  history : Option (List Entry)

/-- Invocation counts of the external capabilities during one
`/generate` request. -/
structure GenTrace where
  retrieveCalls : Nat
  genCalls : Nat
  webCalls : Nat

/-- Invocation counts plus memory effects during one `/chat` request:
`store` is the memory file for the addressed (user, conversation) key
after the request. -/
structure ChatTrace where
  retrieveCalls : Nat
  genCalls : Nat
  webCalls : Nat
  memReads : Nat
  memWrites : Nat
  store : FileContent

/-- 429 body of `/generate` on `ResourceExhausted`. -/
def quota429Msg : String := "AI 服務目前請求量過大，請稍後再試。API 免費額度已用盡。"

/-- 500 body of `/generate` on any other exception. -/
def internal500Msg : String := "處理您的請求時發生內部錯誤"

/-- 400 body of `/generate` when the `message` field is missing. -/
def genBadRequestMsg : String := "請求格式錯誤，需要包含 \x27message\x27 欄位"

/-- 400 body of `/chat` when `message` or `chat_id` is missing. -/
def chatBadRequestMsg : String := "請求格式錯誤，需要包含 \x27message\x27 和 \x27chat_id\x27 欄位"

/-- 401 body of `/chat` when no user identity can be resolved. -/
def noIdentityMsg : String := "JWT payload 缺少有效的使用者識別 (email/username)"

/-- The `except` clauses of `handle_generation`: `ResourceExhausted`
becomes a 429 with a user-facing try-again-later message, any other
exception a 500 with a generic message. -/
def err_outcome (e : PyErr) : HttpOutcome :=
  match e with
  | .resourceExhausted => ⟨429, none, some quota429Msg, none⟩
  | .other => ⟨500, none, some internal500Msg, none⟩

/-- A Flask response for an exception nobody caught (generic 500, no JSON
body): this is what `/chat` produces on upstream failures, since it has
no `try` block. -/
def unhandled500 : HttpOutcome := ⟨500, none, none, none⟩

/-- `routes.handle_generation` (`POST /generate`): the request is modelled
by its `message` field (`none` when absent).  Retrieval, generation and
the fallback block run inside one `try`; the trace counts capability
invocations. -/
def handle_generation (caps : Caps) (message : Option String) : HttpOutcome × GenTrace :=
  match message with
  | none => (⟨400, none, some genBadRequestMsg, none⟩, ⟨0, 0, 0⟩)
  | some user_query =>
    match caps.query user_query with
    | .error e => (err_outcome e, ⟨1, 0, 0⟩)
    | .ok res =>
      let relevant_context := find_best_passage res
      match generate_answer user_query relevant_context caps.generateContent with
      | .error e => (err_outcome e, ⟨1, 1, 0⟩)
      | .ok ans0 =>
        if fallbackTriggered relevant_context ans0 then
          let web_ctx := caps.webSearch user_query
          if web_ctx = "" then
            (⟨200, some ans0, none, none⟩, ⟨1, 1, 1⟩)
          else
            match generate_answer user_query web_ctx caps.generateContent with
            | .error e => (err_outcome e, ⟨1, 2, 1⟩)
            | .ok ans1 => (⟨200, some ans1, none, none⟩, ⟨1, 2, 1⟩)
        else
          (⟨200, some ans0, none, none⟩, ⟨1, 1, 0⟩)

/-- `request.user.get(k)`: a missing key yields `None`. -/
def pyGet (d : List (String × PyVal)) (k : String) : PyVal :=
  (d.lookup k).getD PyVal.pnone

/-- Python `a or b` (first truthy wins). -/
def pyOr (a b : PyVal) : PyVal := if truthy a then a else b

/-- The identity resolution of the `/chat` route:
`user_id = claims.get('user_id') or claims.get('id') or
 claims.get('email') or claims.get('username')`. -/
def resolveUserId (claims : List (String × PyVal)) : PyVal :=
  pyOr (pyGet claims "user_id")
    (pyOr (pyGet claims "id") (pyOr (pyGet claims "email") (pyGet claims "username")))

/-- `'\n'.join(f"{h['role']}: {h['message']}" for h in history)`. -/
def historyTextOf (history : List Entry) : String :=
  String.intercalate "\n" (history.map (fun h => pyStr h.role ++ ": " ++ pyStr h.message))

/-- `full_context = f"{history_text}\nuser: {user_query}" if history_text
else user_query`. -/
def fullContextOf (history : List Entry) (user_query : String) : String :=
  if historyTextOf history = "" then user_query
  else historyTextOf history ++ "\nuser: " ++ user_query

/-- The tail of the `/chat` route after the final answer is fixed: the two
unconditional memory appends (user turn, then bot turn) and the 200
response carrying the reply and `history + [user turn, bot turn]`.
A failing append propagates as an unhandled exception.  `gcalls` and
`wcalls` are the generation/web-search invocation counts accumulated so
far. -/
def chatFinish (fc : FileContent) (user_query final_answer : String)
    (history : List Entry) (gcalls wcalls : Nat) : HttpOutcome × ChatTrace :=
  match add_message fc user_query "user" with
  | .error _ => (unhandled500, ⟨1, gcalls, wcalls, 1, 0, fc⟩)
  | .ok fc1 =>
    match add_message fc1 final_answer "bot" with
    | .error _ => (unhandled500, ⟨1, gcalls, wcalls, 1, 1, fc1⟩)
    | .ok fc2 =>
      (⟨200, some final_answer, none,
          some (history ++ [Entry.mk (.pstr "user") (.pstr user_query),
                            Entry.mk (.pstr "bot") (.pstr final_answer)])⟩,
        ⟨1, gcalls, wcalls, 1, 2, fc2⟩)

/-- `routes.chat` (`POST /chat`): `claims` is the verified JWT payload,
`body` the request body modelled as `(chat_id, message)` when both fields
are present, `fc` the memory file of the addressed (user, conversation)
key.  Identity resolution precedes any memory access; the RAG and
fallback block mirror `handle_generation`, but run with NO `try` — any
upstream exception surfaces as an unhandled generic 500. -/
def chat (caps : Caps) (claims : List (String × PyVal))
    (body : Option (String × String)) (fc : FileContent) : HttpOutcome × ChatTrace :=
  match body with
  | none => (⟨400, none, some chatBadRequestMsg, none⟩, ⟨0, 0, 0, 0, 0, fc⟩)
  | some (_chat_id, user_query) =>
    if truthy (resolveUserId claims) then
      match get_history fc 20 with
      | .error _ => (unhandled500, ⟨0, 0, 0, 1, 0, fc⟩)
      | .ok history =>
        let full_context := fullContextOf history user_query
        match caps.query full_context with
        | .error _ => (unhandled500, ⟨1, 0, 0, 1, 0, fc⟩)
        | .ok res =>
          let relevant_context := find_best_passage res
          match generate_answer user_query relevant_context caps.generateContent with
          | .error _ => (unhandled500, ⟨1, 1, 0, 1, 0, fc⟩)
          | .ok ans0 =>
            if fallbackTriggered relevant_context ans0 then
              let web_ctx := caps.webSearch user_query
              if web_ctx = "" then
                chatFinish fc user_query ans0 history 1 1
              else
                match generate_answer user_query web_ctx caps.generateContent with
                | .error _ => (unhandled500, ⟨1, 2, 1, 1, 0, fc⟩)
                | .ok ans1 => chatFinish fc user_query ans1 history 2 1
            else
              chatFinish fc user_query ans0 history 1 0
    else
      (⟨401, none, some noIdentityMsg, none⟩, ⟨0, 0, 0, 0, 0, fc⟩)

/-- The identity claim fields, in the precedence order of §3 of the spec. -/
def identityFields : List String := ["user_id", "id", "email", "username"]

/-- Modelled on the wording of the spec (§3, User Identity): the first
non-empty value among the fields `user_id`, `id`, `email`, `username`, in
exactly that order; `none` when no field yields a non-empty value. -/
def firstNonEmptyClaim (claims : List (String × PyVal)) : Option PyVal :=
  identityFields.findSome? fun k =>
    if truthy (pyGet claims k) then some (pyGet claims k) else none

/-- The raw dict `{"role": "user", "message": "m"}` of one stored turn. -/
def turnDict : PyVal := entryToPyVal (Entry.mk (.pstr "user") (.pstr "m"))

/-- Capabilities whose retrieval always finds a real passage, whose model
always answers "ANSWER", and whose web search is disabled. -/
def capsPlain : Caps :=
  ⟨fun _ => .ok (some [["passage"]]), fun _ => Except.ok "ANSWER", fun _ => ""⟩

/-! The knowledge base refresher (`knowledge_base_service.py`). -/

/-- Batch size of the refresher upload loop. -/
def CHUNK_SIZE : Nat := 4

/-- Inter-batch delay (seconds) of the refresher upload loop. -/
def DELAY_BETWEEN_CHUNKS : Nat := 10

/-- Python `s.lower()` (character-wise lowering). -/
def pyLower (s : String) : String := String.mk (s.data.map Char.toLower)

/-- Python `s.endswith(t)`. -/
def pyEndsWith (s suffixStr : String) : Bool :=
  startsWithChars s.data.reverse suffixStr.data.reverse

/-- `is_csv_url`: the URL path contains the open-data API marker or ends
in `.csv` (case-insensitively). -/
def is_csv_url (url : String) : Bool :=
  containsSub url "api/v1/rest/datastore" || pyEndsWith (pyLower url) ".csv"

/-- One document prepared for upload: `{"id": ..., "document": ...,
"metadata": {"source": ...}}`. -/
structure Doc where
  id : String
  document : String
  source : String

/-- The fetch loop of `update_knowledge_base`: for each `(i, url)` the
content comes from the CSV processor or the web scraper (both return `""`
on failure, so a falsy content skips the source), and kept documents get
id `doc_{i+1}` (indexed over ALL configured URLs). -/
def collectDocs (csvFetch scrapeFetch : String → String) (urls : List String) : List Doc :=
  urls.enum.filterMap fun iu =>
    let content := if is_csv_url iu.2 then csvFetch iu.2 else scrapeFetch iu.2
    if content = "" then none
    else some ⟨"doc_" ++ toString (iu.1 + 1), content, iu.2⟩

/-- The operations `update_knowledge_base` issues against the index, plus
the inter-batch waits, in program order. -/
inductive IndexOp where
  | delete (ids : List String)
  | add (docs : List Doc)
  | sleep (secs : Nat)

def isSleepOp : IndexOp → Bool
  | .sleep _ => true
  | _ => false

def addChunk : IndexOp → Option (List Doc)
  | .add c => some c
  | _ => none

/-- The upload loop `for i in range(0, len(all_docs), CHUNK_SIZE)`:
each iteration uploads `all_docs[i:i+CHUNK_SIZE]` and then sleeps iff
`i + CHUNK_SIZE < len(all_docs)`, i.e. iff documents remain. -/
def uploadLoop (docs : List Doc) : List IndexOp :=
  if h : docs.isEmpty then []
  else
    IndexOp.add (docs.take CHUNK_SIZE) ::
      (if (docs.drop CHUNK_SIZE).isEmpty then []
       else IndexOp.sleep DELAY_BETWEEN_CHUNKS :: uploadLoop (docs.drop CHUNK_SIZE))
termination_by docs.length
decreasing_by
  have hp : 0 < docs.length := by
    cases docs with
    | nil => simp at h
    | cons d t => simp
  simp only [List.length_drop, CHUNK_SIZE]
  omega

/-- `update_knowledge_base`, as the sequence of index operations it
issues: if no document was fetched the run aborts before touching the
index; otherwise all pre-existing ids are deleted (when any exist) and the
batched upload loop runs. -/
def update_knowledge_base (csvFetch scrapeFetch : String → String)
    (urls existingIds : List String) : List IndexOp :=
  let all_docs := collectDocs csvFetch scrapeFetch urls
  if all_docs.isEmpty then []
  else
    (if existingIds.isEmpty then [] else [IndexOp.delete existingIds]) ++
      uploadLoop all_docs

/-- Effect of a sequence of index operations on index contents. -/
def applyOps (index : List Doc) (ops : List IndexOp) : List Doc :=
  ops.foldl
    (fun idx op =>
      match op with
      | .delete ids => idx.filter (fun d => !(ids.contains d.id))
      | .add docs => idx ++ docs
      | .sleep _ => idx)
    index

/-- The chunks `all_docs[i:i+CHUNK_SIZE]` visited by the upload loop, in
order. -/
def chunksOf (docs : List Doc) : List (List Doc) :=
  if h : docs.isEmpty then []
  else docs.take CHUNK_SIZE :: chunksOf (docs.drop CHUNK_SIZE)
termination_by docs.length
decreasing_by
  have hp : 0 < docs.length := by
    cases docs with
    | nil => simp at h
    | cons d t => simp
  simp only [List.length_drop, CHUNK_SIZE]
  omega

/-- One `add` per chunk with exactly one `sleep` between consecutive
chunks and none after the last. -/
def addOpsWithDelays : List (List Doc) → List IndexOp
  | [] => []
  | [c] => [IndexOp.add c]
  | c :: c2 :: rest =>
    IndexOp.add c :: IndexOp.sleep DELAY_BETWEEN_CHUNKS :: addOpsWithDelays (c2 :: rest)

/-- The ten documents produced by ten successful page fetches. -/
def docsTen : List Doc :=
  [⟨"doc_1", "x", "u"⟩, ⟨"doc_2", "x", "u"⟩, ⟨"doc_3", "x", "u"⟩, ⟨"doc_4", "x", "u"⟩,
   ⟨"doc_5", "x", "u"⟩, ⟨"doc_6", "x", "u"⟩, ⟨"doc_7", "x", "u"⟩, ⟨"doc_8", "x", "u"⟩,
   ⟨"doc_9", "x", "u"⟩, ⟨"doc_10", "x", "u"⟩]

/-! Theorems. -/

/-! Helper lemmas about the memory service. -/

theorem normalize_history_plist (items : List PyVal) :
    normalize_history (.plist items) = .ok (items.filterMap normalizeItem) := by
  cases items <;> simp [normalize_history, truthy, iterItems]

theorem normalizeItem_entryToPyVal (e : Entry) :
    normalizeItem (entryToPyVal e) = some e := by
  simp [normalizeItem, entryToPyVal, List.lookup]

theorem filterMap_normalizeItem_map_entryToPyVal (l : List Entry) :
    (l.map entryToPyVal).filterMap normalizeItem = l := by
  induction l with
  | nil => rfl
  | cons e t ih => simp [List.filterMap_cons, normalizeItem_entryToPyVal, ih]

/-- Re-reading a file just written by `add_message` normalizes back to the
same entry list. -/
theorem normalize_history_roundtrip (l : List Entry) :
    normalize_history (.plist (l.map entryToPyVal)) = .ok l := by
  rw [normalize_history_plist, filterMap_normalizeItem_map_entryToPyVal]

theorem add_message_ok_of_get_history (fc : FileContent) (hist : List Entry) (m r : String)
    (h : get_history fc 20 = Except.ok hist) :
    ∃ norm : List Entry, add_message fc m r =
      Except.ok (.json (.plist ((norm ++ [Entry.mk (.pstr r) (.pstr m)]).map entryToPyVal))) := by
  cases fc with
  | absent =>
    exact ⟨[], by simp [add_message, normalize_history, truthy]⟩
  | invalid => simp [get_history] at h
  | json v =>
    cases hn : normalize_history v with
    | error e => simp [get_history, hn] at h
    | ok norm => exact ⟨norm, by simp [add_message, hn]⟩

theorem get_history_of_written (l : List Entry) (limit : Nat) :
    get_history (.json (.plist (l.map entryToPyVal))) limit = .ok (pySliceLast l limit) := by
  simp [get_history, normalize_history_roundtrip]

/-- C7: for every list of raw history entries of any mixture of shapes,
normalization never raises and returns exactly the spec-described result:
canonical objects and legacy pairs map to the uniform role/message shape
in input order, and every other entry is silently dropped. -/
theorem claim_C7 (entries : List PyVal) :
    normalize_history (.plist entries) = Except.ok (normalizeSpecC7 entries) := by
  rw [normalize_history_plist]
  rfl

/-- C2 (amended to limits N ≥ 1): reading a missing log yields the empty
sequence, and for a stored log, `get_history` with limit N returns the
length-`min N total` suffix of the normalized stored history, in stored
(oldest-to-newest) order, the whole history when fewer than N turns
exist.  (At N = 0 the code returns the whole list, see the
counterexample.) -/
theorem claim_C2 :
    (∀ N, get_history FileContent.absent N = Except.ok []) ∧
    (∀ (items : List PyVal) (N : Nat), 1 ≤ N →
      ∃ full l : List Entry,
        normalize_history (.plist items) = Except.ok full ∧
        get_history (.json (.plist items)) N = Except.ok l ∧
        l.length = min N full.length ∧
        List.IsSuffix l full ∧
        (full.length ≤ N → l = full)) := by
  constructor
  · intro N; rfl
  · intro items N hN
    refine ⟨items.filterMap normalizeItem, pySliceLast (items.filterMap normalizeItem) N,
      normalize_history_plist items, ?_, ?_, ?_, ?_⟩
    · simp [get_history, normalize_history_plist]
    · unfold pySliceLast
      rw [if_neg (by omega)]
      simp [List.length_drop]
      omega
    · unfold pySliceLast
      rw [if_neg (by omega)]
      exact ⟨(items.filterMap normalizeItem).take ((items.filterMap normalizeItem).length - N),
        List.take_append_drop _ _⟩
    · intro hle
      unfold pySliceLast
      rw [if_neg (by omega)]
      have hz : (items.filterMap normalizeItem).length - N = 0 := by omega
      simp [hz]

theorem claim_C2_witness :
    ∃ full l : List Entry,
      normalize_history (.plist [entryToPyVal (Entry.mk (.pstr "user") (.pstr "hi"))]) =
        Except.ok full ∧
      get_history (.json (.plist [entryToPyVal (Entry.mk (.pstr "user") (.pstr "hi"))])) 1 =
        Except.ok l ∧
      l.length = min 1 full.length ∧
      List.IsSuffix l full ∧
      (full.length ≤ 1 → l = full) :=
  claim_C2.2 [entryToPyVal (Entry.mk (.pstr "user") (.pstr "hi"))] 1 (by decide)

/-- C2 counterexample: with limit 0 and one stored turn, `get_history`
returns that turn (Python `l[-0:]` is the whole list), so the returned
length is 1, not `min 0 1 = 0` as the claim requires for every N. -/
theorem claim_C2_counterexample :
    get_history (.json (.plist [entryToPyVal (Entry.mk (.pstr "user") (.pstr "hi"))])) 0 =
      Except.ok [Entry.mk (.pstr "user") (.pstr "hi")] ∧
    ¬ ([Entry.mk (.pstr "user") (.pstr "hi")].length = min 0 1) :=
  ⟨rfl, by decide⟩

/-- C4 counterexample: reading a (user, conversation) key whose stored log
file exists but is unreadable/malformed raises (the read path has no
exception handler), instead of recovering with an empty history. -/
theorem claim_C4_counterexample :
    get_history FileContent.invalid 20 = Except.error () := rfl

/-- C4 (amended): an append on an unreadable (or absent) log file recovers
by treating the existing history as empty and still succeeds in writing
the new turn; a read recovers only when the file is absent — on an
unreadable file the read operation raises rather than returning empty. -/
theorem claim_C4_amended :
    (∀ m r : String, add_message FileContent.invalid m r =
        Except.ok (.json (.plist [entryToPyVal (Entry.mk (.pstr r) (.pstr m))]))) ∧
    (∀ m r : String, add_message FileContent.absent m r =
        Except.ok (.json (.plist [entryToPyVal (Entry.mk (.pstr r) (.pstr m))]))) ∧
    (∀ limit : Nat, get_history FileContent.invalid limit = Except.error ()) ∧
    (∀ limit : Nat, get_history FileContent.absent limit = Except.ok []) :=
  ⟨fun _ _ => rfl, fun _ _ => rfl, fun _ => rfl, fun _ => rfl⟩

/-- C10: every log file written by a successful append holds only
canonical role/message dict entries: the whole previous history is
re-normalized, the new turn is appended last, and re-normalizing the
written file is the identity on the entry list. -/
theorem claim_C10 (fc : FileContent) (m r : String) (fc2 : FileContent)
    (h : add_message fc m r = Except.ok fc2) :
    ∃ entries : List Entry,
      fc2 = .json (.plist (entries.map entryToPyVal)) ∧
      normalize_history (.plist (entries.map entryToPyVal)) = Except.ok entries ∧
      entries ≠ [] ∧
      entries.getLast? = some (Entry.mk (.pstr r) (.pstr m)) ∧
      ∀ p ∈ entries.map entryToPyVal,
        ∃ rv mv, p = PyVal.pdict [("role", rv), ("message", mv)] := by
  have main : ∀ (raw : PyVal),
      (match normalize_history raw with
        | .error e => (.error e : Except Unit FileContent)
        | .ok history =>
          .ok (.json (.plist ((history ++ [Entry.mk (.pstr r) (.pstr m)]).map entryToPyVal))))
        = Except.ok fc2 →
      ∃ entries : List Entry,
        fc2 = .json (.plist (entries.map entryToPyVal)) ∧
        normalize_history (.plist (entries.map entryToPyVal)) = Except.ok entries ∧
        entries ≠ [] ∧
        entries.getLast? = some (Entry.mk (.pstr r) (.pstr m)) ∧
        ∀ p ∈ entries.map entryToPyVal,
          ∃ rv mv, p = PyVal.pdict [("role", rv), ("message", mv)] := by
    intro raw hraw
    cases hn : normalize_history raw with
    | error e => rw [hn] at hraw; cases hraw
    | ok hist =>
      rw [hn] at hraw
      have hfc2 : fc2 =
          .json (.plist ((hist ++ [Entry.mk (.pstr r) (.pstr m)]).map entryToPyVal)) := by
        cases hraw; rfl
      refine ⟨hist ++ [Entry.mk (.pstr r) (.pstr m)], hfc2,
        normalize_history_roundtrip _, by simp, by simp, ?_⟩
      intro p hp
      rw [List.mem_map] at hp
      obtain ⟨e2, _, rfl⟩ := hp
      exact ⟨e2.role, e2.message, rfl⟩
  cases fc with
  | absent => exact main (.plist []) h
  | invalid => exact main (.plist []) h
  | json v => exact main v h

theorem claim_C10_witness :
    ∃ entries : List Entry,
      FileContent.json (.plist [entryToPyVal (Entry.mk (.pstr "user") (.pstr "hi"))]) =
        .json (.plist (entries.map entryToPyVal)) ∧
      normalize_history (.plist (entries.map entryToPyVal)) = Except.ok entries ∧
      entries ≠ [] ∧
      entries.getLast? = some (Entry.mk (.pstr "user") (.pstr "hi")) ∧
      ∀ p ∈ entries.map entryToPyVal,
        ∃ rv mv, p = PyVal.pdict [("role", rv), ("message", mv)] :=
  claim_C10 FileContent.absent "hi" "user"
    (FileContent.json (.plist [entryToPyVal (Entry.mk (.pstr "user") (.pstr "hi"))])) rfl

/-! Helper lemmas about the routes. -/

theorem sentinel_hits_marker :
    fallback_markers.any (fun m => containsSub sentinelNoData m) = true := by decide

theorem chatFinish_webCalls (fc : FileContent) (q a : String) (history : List Entry)
    (g w : Nat) : (chatFinish fc q a history g w).2.webCalls = w := by
  cases hadd : add_message fc q "user" with
  | error e => simp [chatFinish, hadd]
  | ok fc1 =>
    cases hadd2 : add_message fc1 a "bot" with
    | error e => simp [chatFinish, hadd, hadd2]
    | ok fc2 => simp [chatFinish, hadd, hadd2]

theorem add_message_written (l : List Entry) (m r : String) :
    add_message (.json (.plist (l.map entryToPyVal))) m r =
      Except.ok (.json (.plist ((l ++ [Entry.mk (.pstr r) (.pstr m)]).map entryToPyVal))) := by
  simp only [add_message]
  rw [normalize_history_roundtrip]

theorem chatFinish_ok (fc : FileContent) (hist0 : List Entry)
    (h : get_history fc 20 = Except.ok hist0) (q a : String) (history : List Entry)
    (g w : Nat) :
    ∃ fc2, chatFinish fc q a history g w =
      (⟨200, some a, none,
          some (history ++ [Entry.mk (.pstr "user") (.pstr q),
                            Entry.mk (.pstr "bot") (.pstr a)])⟩,
        ⟨1, g, w, 1, 2, fc2⟩) := by
  obtain ⟨norm, h1⟩ := add_message_ok_of_get_history fc hist0 q "user" h
  have h2 := add_message_written (norm ++ [Entry.mk (.pstr "user") (.pstr q)]) a "bot"
  refine ⟨FileContent.json (.plist
    ((norm ++ [Entry.mk (.pstr "user") (.pstr q)] ++
        [Entry.mk (.pstr "bot") (.pstr a)]).map entryToPyVal)), ?_⟩
  simp only [chatFinish, h1, h2]

theorem get_history_spec (items : List PyVal) (full l : List Entry) (N : Nat)
    (hN : 1 ≤ N) (hfull : normalize_history (.plist items) = Except.ok full)
    (h : get_history (.json (.plist items)) N = Except.ok l) :
    l.length = min N full.length ∧ List.IsSuffix l full := by
  have hl : l = pySliceLast full N := by
    simp [get_history, hfull] at h
    exact h.symm
  subst hl
  unfold pySliceLast
  rw [if_neg (by omega)]
  constructor
  · simp [List.length_drop]; omega
  · exact ⟨full.take (full.length - N), List.take_append_drop _ _⟩

theorem firstNonEmpty_some (claims : List (String × PyVal)) (v : PyVal)
    (h : firstNonEmptyClaim claims = some v) : resolveUserId claims = v := by
  unfold firstNonEmptyClaim identityFields at h
  unfold resolveUserId pyOr
  by_cases h1 : truthy (pyGet claims "user_id") <;>
    by_cases h2 : truthy (pyGet claims "id") <;>
      by_cases h3 : truthy (pyGet claims "email") <;>
        by_cases h4 : truthy (pyGet claims "username") <;>
          simp [List.findSome?, h1, h2, h3, h4] at h ⊢ <;>
            exact h

theorem firstNonEmpty_none (claims : List (String × PyVal))
    (h : firstNonEmptyClaim claims = none) : truthy (resolveUserId claims) = false := by
  unfold firstNonEmptyClaim identityFields at h
  unfold resolveUserId pyOr
  by_cases h1 : truthy (pyGet claims "user_id") <;>
    by_cases h2 : truthy (pyGet claims "id") <;>
      by_cases h3 : truthy (pyGet claims "email") <;>
        by_cases h4 : truthy (pyGet claims "username") <;>
          simp [List.findSome?, h1, h2, h3, h4] at h ⊢

/-- C6: the user identity resolves to the first non-empty value among
`user_id`, `id`, `email`, `username` in that precedence order; when no
field yields a non-empty value, the conversational request is rejected
with a 401 and no memory is read or written (zero reads/writes, store
unchanged). -/
theorem claim_C6 :
    (∀ (claims : List (String × PyVal)) (v : PyVal),
      firstNonEmptyClaim claims = some v → resolveUserId claims = v) ∧
    (∀ (caps : Caps) (claims : List (String × PyVal)) (cid q : String) (fc : FileContent),
      firstNonEmptyClaim claims = none →
      chat caps claims (some (cid, q)) fc =
        (⟨401, none, some noIdentityMsg, none⟩, ⟨0, 0, 0, 0, 0, fc⟩)) := by
  refine ⟨firstNonEmpty_some, ?_⟩
  intro caps claims cid q fc h
  have hf := firstNonEmpty_none claims h
  simp [chat, hf]

theorem claim_C6_witness :
    resolveUserId [("user_id", .pstr "u1"), ("email", .pstr "a@x.com")] = .pstr "u1" ∧
    resolveUserId [("email", .pstr "a@x.com")] = .pstr "a@x.com" ∧
    chat ⟨fun _ => .ok none, fun _ => .ok "", fun _ => ""⟩ [] (some ("c", "q"))
        FileContent.absent =
      (⟨401, none, some noIdentityMsg, none⟩, ⟨0, 0, 0, 0, 0, FileContent.absent⟩) :=
  ⟨claim_C6.1 _ _ rfl, claim_C6.1 _ _ rfl,
    claim_C6.2 ⟨fun _ => .ok none, fun _ => .ok "", fun _ => ""⟩ [] "c" "q"
      FileContent.absent rfl⟩

/-- C3 (amended): quota exhaustion is surfaced as a 429 with a
try-again-later message, without a retry, on the stateless `/generate`
path only (whether it comes from the retrieval or the generation call,
including the fallback regeneration); on the conversational `/chat` path
there is no handler, so the same failure escapes as an unhandled generic
500, not a 429. -/
theorem claim_C3_amended :
    (∀ (caps : Caps) (q : String),
      caps.query q = Except.error .resourceExhausted →
      handle_generation caps (some q) =
        (⟨429, none, some quota429Msg, none⟩, ⟨1, 0, 0⟩)) ∧
    (∀ (caps : Caps) (q : String) (res : Option (List (List String))),
      caps.query q = Except.ok res →
      generate_answer q (find_best_passage res) caps.generateContent =
        Except.error .resourceExhausted →
      handle_generation caps (some q) =
        (⟨429, none, some quota429Msg, none⟩, ⟨1, 1, 0⟩)) ∧
    (∀ (caps : Caps) (claims : List (String × PyVal)) (cid q : String)
        (fc : FileContent) (history : List Entry),
      truthy (resolveUserId claims) = true →
      get_history fc 20 = Except.ok history →
      caps.query (fullContextOf history q) = Except.error .resourceExhausted →
      chat caps claims (some (cid, q)) fc = (unhandled500, ⟨1, 0, 0, 1, 0, fc⟩)) ∧
    (∀ (caps : Caps) (claims : List (String × PyVal)) (cid q : String)
        (fc : FileContent) (history : List Entry) (res : Option (List (List String))),
      truthy (resolveUserId claims) = true →
      get_history fc 20 = Except.ok history →
      caps.query (fullContextOf history q) = Except.ok res →
      generate_answer q (find_best_passage res) caps.generateContent =
        Except.error .resourceExhausted →
      chat caps claims (some (cid, q)) fc = (unhandled500, ⟨1, 1, 0, 1, 0, fc⟩)) := by
  refine ⟨?_, ?_, ?_, ?_⟩
  · intro caps q hq
    simp [handle_generation, hq, err_outcome]
  · intro caps q res hq hg
    simp [handle_generation, hq, hg, err_outcome]
  · intro caps claims cid q fc history hid hh hq
    simp [chat, hid, hh, hq]
  · intro caps claims cid q fc history res hid hh hq hg
    simp [chat, hid, hh, hq, hg]

theorem claim_C3_witness :
    handle_generation
        ⟨fun _ => Except.error .resourceExhausted, fun _ => .ok "", fun _ => ""⟩
        (some "q") =
      (⟨429, none, some quota429Msg, none⟩, ⟨1, 0, 0⟩) :=
  claim_C3_amended.1 ⟨fun _ => Except.error .resourceExhausted, fun _ => .ok "", fun _ => ""⟩
    "q" rfl

/-- C3 counterexample: with a generation capability that reports quota
exhaustion, a valid `/chat` request yields an unhandled generic 500, not
the claimed 429 (the `/generate` path on the same capabilities does give
the 429). -/
theorem claim_C3_counterexample :
    (chat ⟨fun _ => .ok (some [["passage"]]), fun _ => Except.error .resourceExhausted,
        fun _ => ""⟩
      [("email", .pstr "a@x.com")] (some ("c", "q")) FileContent.absent).1.status = 500 ∧
    ¬ ((chat ⟨fun _ => .ok (some [["passage"]]), fun _ => Except.error .resourceExhausted,
        fun _ => ""⟩
      [("email", .pstr "a@x.com")] (some ("c", "q")) FileContent.absent).1.status = 429) ∧
    (handle_generation ⟨fun _ => .ok (some [["passage"]]),
        fun _ => Except.error .resourceExhausted, fun _ => ""⟩ (some "q")).1.status = 429 :=
  ⟨rfl, by decide, rfl⟩

theorem trigger_of_claim (res : Option (List (List String))) (ans0 : String)
    (h : find_best_passage res = sentinelNoData ∨
      fallback_markers.any (fun m => containsSub ans0 m) = true) :
    fallbackTriggered (find_best_passage res) ans0 = true := by
  rcases h with h | h
  · unfold fallbackTriggered
    rw [h, sentinel_hits_marker]
    rfl
  · unfold fallbackTriggered
    rw [h]
    simp

/-- C1: on both QA paths, when the retrieved context equals the "no
relevant data" sentinel, or the generated answer textually contains one of
the two fixed refusal markers, the web fallback is invoked exactly once;
the regenerated answer replaces the original one exactly when the web
context is non-empty, and an empty web context leaves the original
(refusal) answer unchanged, with no further fallback. -/
theorem claim_C1 :
    (∀ (caps : Caps) (q : String) (res : Option (List (List String))) (ans0 : String),
      caps.query q = Except.ok res →
      generate_answer q (find_best_passage res) caps.generateContent = Except.ok ans0 →
      (find_best_passage res = sentinelNoData ∨
        fallback_markers.any (fun m => containsSub ans0 m) = true) →
      (handle_generation caps (some q)).2.webCalls = 1 ∧
      (caps.webSearch q = "" → (handle_generation caps (some q)).1.reply = some ans0) ∧
      (∀ ans1, caps.webSearch q ≠ "" →
        generate_answer q (caps.webSearch q) caps.generateContent = Except.ok ans1 →
        (handle_generation caps (some q)).1.reply = some ans1)) ∧
    (∀ (caps : Caps) (claims : List (String × PyVal)) (cid q : String) (fc : FileContent)
        (history : List Entry) (res : Option (List (List String))) (ans0 : String),
      truthy (resolveUserId claims) = true →
      get_history fc 20 = Except.ok history →
      caps.query (fullContextOf history q) = Except.ok res →
      generate_answer q (find_best_passage res) caps.generateContent = Except.ok ans0 →
      (find_best_passage res = sentinelNoData ∨
        fallback_markers.any (fun m => containsSub ans0 m) = true) →
      (chat caps claims (some (cid, q)) fc).2.webCalls = 1 ∧
      (caps.webSearch q = "" → (chat caps claims (some (cid, q)) fc).1.reply = some ans0) ∧
      (∀ ans1, caps.webSearch q ≠ "" →
        generate_answer q (caps.webSearch q) caps.generateContent = Except.ok ans1 →
        (chat caps claims (some (cid, q)) fc).1.reply = some ans1)) := by
  constructor
  · intro caps q res ans0 hq hg htr
    have ht := trigger_of_claim res ans0 htr
    refine ⟨?_, ?_, ?_⟩
    · by_cases hw : caps.webSearch q = ""
      · simp [handle_generation, hq, hg, ht, hw]
      · cases h2 : generate_answer q (caps.webSearch q) caps.generateContent with
        | error e => simp [handle_generation, hq, hg, ht, hw, h2]
        | ok a1 => simp [handle_generation, hq, hg, ht, hw, h2]
    · intro hw
      simp [handle_generation, hq, hg, ht, hw]
    · intro ans1 hw h2
      simp [handle_generation, hq, hg, ht, hw, h2]
  · intro caps claims cid q fc history res ans0 hid hh hq hg htr
    have ht := trigger_of_claim res ans0 htr
    refine ⟨?_, ?_, ?_⟩
    · by_cases hw : caps.webSearch q = ""
      · simp [chat, hid, hh, hq, hg, ht, hw, chatFinish_webCalls]
      · cases h2 : generate_answer q (caps.webSearch q) caps.generateContent with
        | error e => simp [chat, hid, hh, hq, hg, ht, hw, h2]
        | ok a1 => simp [chat, hid, hh, hq, hg, ht, hw, h2, chatFinish_webCalls]
    · intro hw
      obtain ⟨fc2, hcf⟩ := chatFinish_ok fc history hh q ans0 history 1 1
      simp [chat, hid, hh, hq, hg, ht, hw, hcf]
    · intro ans1 hw h2
      obtain ⟨fc2, hcf⟩ := chatFinish_ok fc history hh q ans1 history 2 1
      simp [chat, hid, hh, hq, hg, ht, hw, h2, hcf]

theorem claim_C1_witness :
    (handle_generation ⟨fun _ => .ok none, fun _ => Except.ok "ANS", fun _ => "web"⟩
      (some "q")).2.webCalls = 1 ∧
    (handle_generation ⟨fun _ => .ok none, fun _ => Except.ok "ANS", fun _ => "web"⟩
      (some "q")).1.reply = some "ANS" := by
  have h := claim_C1.1 ⟨fun _ => .ok none, fun _ => Except.ok "ANS", fun _ => "web"⟩
    "q" none "ANS" rfl rfl (Or.inl rfl)
  exact ⟨h.1, h.2.2 "ANS" (by decide) rfl⟩

/-- C5 (amended): an accepted conversational request responds 200 with the
final answer and an ordered role/message history equal to the turns
returned by the limit-20 memory read — i.e. the most recent `min 20 total`
stored turns, a suffix of the stored history — followed by the new user
turn and the new bot turn, in that order.  (The claim's "all prior turns"
fails beyond 20 stored turns, see the counterexample.) -/
theorem claim_C5_amended (caps : Caps) (claims : List (String × PyVal)) (cid q : String)
    (fc : FileContent) (history : List Entry)
    (hid : truthy (resolveUserId claims) = true)
    (hh : get_history fc 20 = Except.ok history)
    (hq : ∀ s, ∃ r, caps.query s = Except.ok r)
    (hg : ∀ p, ∃ t, caps.generateContent p = Except.ok t) :
    ∃ r : String,
      (chat caps claims (some (cid, q)) fc).1.status = 200 ∧
      (chat caps claims (some (cid, q)) fc).1.reply = some r ∧
      (chat caps claims (some (cid, q)) fc).1.history =
        some (history ++ [Entry.mk (.pstr "user") (.pstr q),
                          Entry.mk (.pstr "bot") (.pstr r)]) ∧
      (∀ (items : List PyVal) (full : List Entry),
        fc = FileContent.json (.plist items) →
        normalize_history (.plist items) = Except.ok full →
        history.length = min 20 full.length ∧ List.IsSuffix history full) := by
  obtain ⟨res, hres⟩ := hq (fullContextOf history q)
  obtain ⟨ans0, hans0⟩ := hg (promptTemplate (find_best_passage res) q)
  have hans2 : generate_answer q (find_best_passage res) caps.generateContent =
      Except.ok ans0 := hans0
  have hsfx : ∀ (items : List PyVal) (full : List Entry),
      fc = FileContent.json (.plist items) →
      normalize_history (.plist items) = Except.ok full →
      history.length = min 20 full.length ∧ List.IsSuffix history full := by
    intro items full hfc hfull
    subst hfc
    exact get_history_spec items full history 20 (by omega) hfull hh
  cases ht : fallbackTriggered (find_best_passage res) ans0 with
  | false =>
    obtain ⟨fc2, hcf⟩ := chatFinish_ok fc history hh q ans0 history 1 0
    refine ⟨ans0, ?_, ?_, ?_, hsfx⟩ <;> simp [chat, hid, hh, hres, hans2, ht, hcf]
  | true =>
    by_cases hw : caps.webSearch q = ""
    · obtain ⟨fc2, hcf⟩ := chatFinish_ok fc history hh q ans0 history 1 1
      refine ⟨ans0, ?_, ?_, ?_, hsfx⟩ <;> simp [chat, hid, hh, hres, hans2, ht, hw, hcf]
    · obtain ⟨ans1, hans1⟩ := hg (promptTemplate (caps.webSearch q) q)
      have hans3 : generate_answer q (caps.webSearch q) caps.generateContent =
          Except.ok ans1 := hans1
      obtain ⟨fc2, hcf⟩ := chatFinish_ok fc history hh q ans1 history 2 1
      refine ⟨ans1, ?_, ?_, ?_, hsfx⟩ <;>
        simp [chat, hid, hh, hres, hans2, ht, hw, hans3, hcf]

theorem claim_C5_witness :
    ∃ r : String,
      (chat ⟨fun _ => .ok (some [["p"]]), fun _ => Except.ok "A", fun _ => ""⟩
        [("email", .pstr "e")] (some ("c", "q")) FileContent.absent).1.status = 200 ∧
      (chat ⟨fun _ => .ok (some [["p"]]), fun _ => Except.ok "A", fun _ => ""⟩
        [("email", .pstr "e")] (some ("c", "q")) FileContent.absent).1.reply = some r ∧
      (chat ⟨fun _ => .ok (some [["p"]]), fun _ => Except.ok "A", fun _ => ""⟩
        [("email", .pstr "e")] (some ("c", "q")) FileContent.absent).1.history =
        some (([] : List Entry) ++ [Entry.mk (.pstr "user") (.pstr "q"),
                          Entry.mk (.pstr "bot") (.pstr r)]) ∧
      (∀ (items : List PyVal) (full : List Entry),
        FileContent.absent = FileContent.json (.plist items) →
        normalize_history (.plist items) = Except.ok full →
        ([] : List Entry).length = min 20 full.length ∧
          List.IsSuffix ([] : List Entry) full) :=
  claim_C5_amended ⟨fun _ => .ok (some [["p"]]), fun _ => Except.ok "A", fun _ => ""⟩
    [("email", .pstr "e")] "c" "q" FileContent.absent [] rfl rfl
    (fun _ => ⟨some [["p"]], rfl⟩) (fun _ => ⟨"A", rfl⟩)

/-- C5 counterexample: with 21 stored prior turns, the accepted chat
response carries only the most recent 20 prior turns plus the two new
turns (22 entries), not all 21 prior turns plus two (23 entries) as the
claim requires for conversations of any length. -/
theorem claim_C5_counterexample :
    (chat capsPlain [("email", .pstr "a@x.com")] (some ("c", "q"))
        (.json (.plist (List.replicate 21 turnDict)))).1.history =
      some (List.replicate 20 (Entry.mk (.pstr "user") (.pstr "m")) ++
        [Entry.mk (.pstr "user") (.pstr "q"), Entry.mk (.pstr "bot") (.pstr "ANSWER")]) ∧
    (List.replicate 20 (Entry.mk (.pstr "user") (.pstr "m")) ++
      [Entry.mk (.pstr "user") (.pstr "q"),
        Entry.mk (.pstr "bot") (.pstr "ANSWER")]).length = 22 ∧
    normalize_history (.plist (List.replicate 21 turnDict)) =
      Except.ok (List.replicate 21 (Entry.mk (.pstr "user") (.pstr "m"))) ∧
    (List.replicate 21 (Entry.mk (.pstr "user") (.pstr "m"))).length = 21 ∧
    (22 : Nat) ≠ 21 + 2 :=
  ⟨rfl, by decide, rfl, by decide, by decide⟩

theorem chunksOf_step (docs : List Doc) :
    chunksOf docs =
      if docs.isEmpty then []
      else docs.take CHUNK_SIZE :: chunksOf (docs.drop CHUNK_SIZE) := by
  rw [chunksOf]
  split <;> rfl

theorem uploadLoop_step (docs : List Doc) :
    uploadLoop docs =
      if docs.isEmpty then []
      else
        IndexOp.add (docs.take CHUNK_SIZE) ::
          (if (docs.drop CHUNK_SIZE).isEmpty then []
           else IndexOp.sleep DELAY_BETWEEN_CHUNKS :: uploadLoop (docs.drop CHUNK_SIZE)) := by
  rw [uploadLoop]
  split <;> rfl

theorem chunksOf_join (docs : List Doc) : (chunksOf docs).flatten = docs := by
  cases hd : docs with
  | nil => simp [chunksOf_step]
  | cons d t =>
    rw [chunksOf_step]
    have ih := chunksOf_join ((d :: t).drop CHUNK_SIZE)
    simp only [List.isEmpty_cons, Bool.false_eq_true, if_false, List.flatten_cons]
    rw [ih]
    exact List.take_append_drop _ _
termination_by docs.length
decreasing_by
  subst hd
  simp only [List.length_drop, CHUNK_SIZE, List.length_cons]
  omega

theorem chunksOf_map_length (docs : List Doc) (hne : docs ≠ []) :
    (chunksOf docs).map List.length =
      List.replicate ((docs.length + CHUNK_SIZE - 1) / CHUNK_SIZE - 1) CHUNK_SIZE ++
        [docs.length - CHUNK_SIZE * ((docs.length + CHUNK_SIZE - 1) / CHUNK_SIZE - 1)] := by
  have hp : 0 < docs.length := List.length_pos.mpr hne
  rw [chunksOf_step, if_neg (by simp [hne])]
  by_cases hrest : docs.length ≤ CHUNK_SIZE
  · have hdrop : docs.drop CHUNK_SIZE = [] := by
      rw [List.drop_eq_nil_iff]
      exact hrest
    have hB : (docs.length + CHUNK_SIZE - 1) / CHUNK_SIZE = 1 := by
      simp only [CHUNK_SIZE] at hrest ⊢
      omega
    rw [hdrop, hB, chunksOf_step]
    simp [List.length_take, Nat.min_eq_right hrest]
  · have hdne : docs.drop CHUNK_SIZE ≠ [] := by
      intro hnil
      rw [List.drop_eq_nil_iff] at hnil
      exact hrest hnil
    have ih := chunksOf_map_length (docs.drop CHUNK_SIZE) hdne
    rw [List.length_drop] at ih
    simp only [List.map_cons, ih, List.length_take]
    have htake : min CHUNK_SIZE docs.length = CHUNK_SIZE :=
      Nat.min_eq_left (by omega)
    rw [htake]
    simp only [CHUNK_SIZE] at hrest ⊢
    have h1 : (docs.length + 4 - 1) / 4 - 1 = (docs.length - 4 + 4 - 1) / 4 := by omega
    rw [h1]
    generalize hB2 : (docs.length - 4 + 4 - 1) / 4 = B2
    obtain ⟨B3, rfl⟩ : ∃ B3, B2 = B3 + 1 := ⟨B2 - 1, by omega⟩
    simp only [Nat.add_sub_cancel, List.replicate_succ, List.cons_append]
    have h4 : docs.length - 4 - 4 * B3 = docs.length - 4 * (B3 + 1) := by omega
    rw [h4]
termination_by docs.length
decreasing_by
  simp only [List.length_drop, CHUNK_SIZE]
  omega

theorem chunksOf_length (docs : List Doc) (hne : docs ≠ []) :
    (chunksOf docs).length = (docs.length + CHUNK_SIZE - 1) / CHUNK_SIZE := by
  have hp : 0 < docs.length := List.length_pos.mpr hne
  have h := congrArg List.length (chunksOf_map_length docs hne)
  simp only [List.length_map, List.length_append, List.length_replicate,
    List.length_cons, List.length_nil] at h
  have hB : 1 ≤ (docs.length + CHUNK_SIZE - 1) / CHUNK_SIZE := by
    simp only [CHUNK_SIZE]
    omega
  omega

theorem uploadLoop_eq_addOps (docs : List Doc) :
    uploadLoop docs = addOpsWithDelays (chunksOf docs) := by
  cases hd : docs with
  | nil => simp [uploadLoop_step, chunksOf_step, addOpsWithDelays]
  | cons d t =>
    rw [uploadLoop_step, chunksOf_step]
    simp only [List.isEmpty_cons, Bool.false_eq_true, if_false]
    by_cases h2 : ((d :: t).drop CHUNK_SIZE).isEmpty
    · have hc : chunksOf ((d :: t).drop CHUNK_SIZE) = [] := by
        rw [chunksOf_step, if_pos h2]
      rw [if_pos h2, hc]
      rfl
    · have ih := uploadLoop_eq_addOps ((d :: t).drop CHUNK_SIZE)
      have hc : chunksOf ((d :: t).drop CHUNK_SIZE) =
          ((d :: t).drop CHUNK_SIZE).take CHUNK_SIZE ::
            chunksOf (((d :: t).drop CHUNK_SIZE).drop CHUNK_SIZE) := by
        rw [chunksOf_step, if_neg (by simp [h2])]
      rw [if_neg (by simp [h2]), hc, ih, hc]
      rfl
termination_by docs.length
decreasing_by
  subst hd
  simp only [List.length_drop, CHUNK_SIZE, List.length_cons]
  omega

theorem addOps_filterMap : ∀ chunks : List (List Doc),
    (addOpsWithDelays chunks).filterMap addChunk = chunks
  | [] => rfl
  | [c] => rfl
  | c :: c2 :: rest => by
    have ih := addOps_filterMap (c2 :: rest)
    simp only [addOpsWithDelays, List.filterMap_cons, addChunk, ih]

theorem addOps_countP_sleep : ∀ chunks : List (List Doc),
    (addOpsWithDelays chunks).countP isSleepOp = chunks.length - 1
  | [] => rfl
  | [c] => rfl
  | c :: c2 :: rest => by
    have ih := addOps_countP_sleep (c2 :: rest)
    simp only [addOpsWithDelays, List.countP_cons, isSleepOp, ih]
    simp [List.length_cons]

theorem addOps_getLast_add : ∀ chunks : List (List Doc), chunks ≠ [] →
    ∃ c, (addOpsWithDelays chunks).getLast? = some (IndexOp.add c)
  | [], h => absurd rfl h
  | [c], _ => ⟨c, rfl⟩
  | c :: c2 :: rest, _ => by
    obtain ⟨cl, hcl⟩ := addOps_getLast_add (c2 :: rest) (by simp)
    refine ⟨cl, ?_⟩
    have hne : addOpsWithDelays (c2 :: rest) ≠ [] := by
      cases rest <;> simp [addOpsWithDelays]
    show (addOpsWithDelays (c :: c2 :: rest)).getLast? = some (IndexOp.add cl)
    have hsplit : addOpsWithDelays (c :: c2 :: rest) =
        [IndexOp.add c, IndexOp.sleep DELAY_BETWEEN_CHUNKS] ++ addOpsWithDelays (c2 :: rest) := rfl
    rw [hsplit, List.getLast?_append_of_ne_nil _ hne]
    exact hcl

/-- C8: a refresh run that produces zero documents aborts before the purge
step: no operation at all is issued against the index, and applying the
(empty) run to any index state leaves it unchanged. -/
theorem claim_C8 (csvFetch scrapeFetch : String → String) (urls existingIds : List String)
    (index : List Doc)
    (h : collectDocs csvFetch scrapeFetch urls = []) :
    update_knowledge_base csvFetch scrapeFetch urls existingIds = [] ∧
    applyOps index (update_knowledge_base csvFetch scrapeFetch urls existingIds) = index := by
  have h1 : update_knowledge_base csvFetch scrapeFetch urls existingIds = [] := by
    simp [update_knowledge_base, h]
  exact ⟨h1, by simp [h1, applyOps]⟩

theorem claim_C8_witness :
    update_knowledge_base (fun _ => "") (fun _ => "") ["u"] ["old"] = [] ∧
    applyOps [⟨"old", "d", "s"⟩]
      (update_knowledge_base (fun _ => "") (fun _ => "") ["u"] ["old"]) =
      [⟨"old", "d", "s"⟩] :=
  claim_C8 (fun _ => "") (fun _ => "") ["u"] ["old"] [⟨"old", "d", "s"⟩] (by rfl)

/-- C9: a refresh run with n > 0 fetched documents uploads them in exactly
⌈n / CHUNK_SIZE⌉ batches, in order (the batches concatenate back to the
fetched document list), every batch of size CHUNK_SIZE except a possibly
smaller final one, with exactly ⌈n / CHUNK_SIZE⌉ − 1 inter-batch delays —
between consecutive batches only, never after the last batch (the last
issued operation is an upload). -/
theorem claim_C9 (csvFetch scrapeFetch : String → String) (urls existingIds : List String)
    (docs : List Doc) (hdocs : collectDocs csvFetch scrapeFetch urls = docs)
    (hne : docs ≠ []) :
    update_knowledge_base csvFetch scrapeFetch urls existingIds =
      (if existingIds.isEmpty then [] else [IndexOp.delete existingIds]) ++ uploadLoop docs ∧
    uploadLoop docs = addOpsWithDelays (chunksOf docs) ∧
    (chunksOf docs).length = (docs.length + CHUNK_SIZE - 1) / CHUNK_SIZE ∧
    (chunksOf docs).flatten = docs ∧
    (chunksOf docs).map List.length =
      List.replicate ((docs.length + CHUNK_SIZE - 1) / CHUNK_SIZE - 1) CHUNK_SIZE ++
        [docs.length - CHUNK_SIZE * ((docs.length + CHUNK_SIZE - 1) / CHUNK_SIZE - 1)] ∧
    (uploadLoop docs).filterMap addChunk = chunksOf docs ∧
    (uploadLoop docs).countP isSleepOp = (docs.length + CHUNK_SIZE - 1) / CHUNK_SIZE - 1 ∧
    (∃ c, (uploadLoop docs).getLast? = some (IndexOp.add c)) := by
  have hchne : chunksOf docs ≠ [] := by
    rw [chunksOf_step, if_neg (by simp [hne])]
    simp
  refine ⟨?_, uploadLoop_eq_addOps docs, chunksOf_length docs hne, chunksOf_join docs,
    chunksOf_map_length docs hne, ?_, ?_, ?_⟩
  · simp [update_knowledge_base, hdocs, hne]
  · rw [uploadLoop_eq_addOps, addOps_filterMap]
  · rw [uploadLoop_eq_addOps, addOps_countP_sleep, chunksOf_length docs hne]
  · rw [uploadLoop_eq_addOps]
    exact addOps_getLast_add _ hchne

theorem claim_C9_witness :
    (chunksOf docsTen).map List.length = [4, 4, 2] ∧
    (uploadLoop docsTen).countP isSleepOp = 2 ∧
    (chunksOf docsTen).length = 3 := by
  have h := claim_C9 (fun _ => "") (fun _ => "x") (List.replicate 10 "u") [] docsTen (by rfl)
    (by simp [docsTen])
  refine ⟨?_, ?_, ?_⟩
  · have h5 := h.2.2.2.2.1
    simpa [docsTen, CHUNK_SIZE, List.replicate] using h5
  · have h7 := h.2.2.2.2.2.2.1
    simpa [docsTen, CHUNK_SIZE] using h7
  · have h3 := h.2.2.1
    simpa [docsTen, CHUNK_SIZE] using h3
